import Mathlib

/-!
Verification of the UxPlay command shell (uxplay.cpp): a shallow embedding of
its configuration validator (get_display_settings, get_value, get_ports, the
argument loop of main), its hardware-address resolver (random_mac,
parse_hw_addr), its idle watchdog (connection_callback, conn_init,
conn_destroy) and its lifecycle teardown (stop_server, the config mutation in
start_server), together with theorems settling the specification claims.

Strings from argv are modelled as NUL-free lists of characters; out-parameters
written through pointers are modelled as returned values; a function that
reports failure by returning false is modelled with Option.
-/

namespace UxPlay

/-- Character list of a Lean string literal; argv strings are NUL-free. -/
def strL (s : String) : List Char := s.toList

/-- C isspace in the default locale: space, TAB, LF, VT, FF, CR. -/
def isSpaceC (c : Char) : Bool := decide (c.toNat = 32 ∨ (9 ≤ c.toNat ∧ c.toNat ≤ 13))

/-- C isdigit. -/
def isDigitC (c : Char) : Bool := decide (48 ≤ c.toNat ∧ c.toNat ≤ 57)

/-- Numeric value of a decimal digit character. -/
def dval (c : Char) : Nat := c.toNat - 48

/-- Value of a decimal digit string, most significant digit first. -/
def decVal (l : List Char) : Nat := l.foldl (fun a c => 10 * a + dval c) 0

/-- Every character is a decimal digit. -/
def allDigits (l : List Char) : Prop := ∀ c ∈ l, isDigitC c = true

instance (l : List Char) : Decidable (allDigits l) := by
  unfold allDigits; infer_instance

/-- No character triggers the strtoul leniencies (leading whitespace skipping
and the optional plus sign). -/
def cleanStr (l : List Char) : Prop := ∀ c ∈ l, isSpaceC c = false ∧ c ≠ '+'

instance (l : List Char) : Decidable (cleanStr l) := by
  unfold cleanStr; infer_instance

def ULONGMAX : Nat := 18446744073709551615

/-- strtoul(str, &end, 10) on a NUL-free string: skip leading whitespace, accept
one optional sign, consume decimal digits (clamping to ULONG_MAX on overflow and
negating modulo 2^64 after a minus sign); result is the value paired with the
suffix end points at.  With no digits consumed the value is 0 and end is the
whole input. -/
def strtoul10 (s : List Char) : Nat × List Char :=
  let t := s.dropWhile isSpaceC
  let u := if t.head? = some '-' ∨ t.head? = some '+' then t.tail else t
  let ds := u.takeWhile isDigitC
  if ds = [] then (0, s)
  else
    let v0 := min (decVal ds) ULONGMAX
    let v := if t.head? = some '-' then (ULONGMAX + 1 - v0) % (ULONGMAX + 1) else v0
    (v, u.dropWhile isDigitC)

/-- std::string::find_first_of for a single character: the part before the
first occurrence and the part after it. -/
def splitFirst (c : Char) : List Char → Option (List Char × List Char)
  | [] => none
  | a :: s =>
    if a = c then some ([], s)
    else
      match splitFirst c s with
      | none => none
      | some p => some (a :: p.1, p.2)

/-- Segment validation shared by the three segments of get_display_settings
(uxplay.cpp lines 189-202): length in [1,m], no leading minus, strtoul must
consume the whole segment, and the value cast to unsigned short is nonzero. -/
def dispSeg (m : Nat) (s : List Char) : Option Nat :=
  if s.length = 0 ∨ m < s.length ∨ s.head? = some '-' then none
  else
    let r := strtoul10 s
    let w := r.1 % 65536
    if r.2 ≠ [] ∨ w = 0 then none else some w

/-- get_display_settings (uxplay.cpp lines 181-204).  On success returns the
width, the height, and the refresh rate when an "@" part is present (the C
function writes *r only in that case). -/
def get_display_settings (s : List Char) : Option (Nat × Nat × Option Nat) :=
  match splitFirst 'x' s with
  | none => none
  | some wr =>
    match dispSeg 4 wr.1 with
    | none => none
    | some w =>
      match splitFirst '@' wr.2 with
      | none =>
        match dispSeg 4 wr.2 with
        | none => none
        | some h => some (w, h, none)
      | some hr =>
        match dispSeg 3 hr.2 with
        | none => none
        | some r =>
          if 255 < r then none
          else
            match dispSeg 4 hr.1 with
            | none => none
            | some h => some (w, h, some r)

/-- get_value (uxplay.cpp lines 206-214): n is the in-out parameter; a ceiling
is enforced only when the incoming value is nonzero, and the accepted unsigned
long is stored into the unsigned int modulo 2^32. -/
def get_value (s : List Char) (n : Nat) : Option Nat :=
  if s.length = 0 ∨ 10 < s.length ∨ s.head? = some '-' then none
  else
    let r := strtoul10 s
    if r.2 ≠ [] ∨ r.1 = 0 ∨ (0 < n ∧ n < r.1) then none
    else some (r.1 % 4294967296)

/-- Per-token validation inside get_ports (uxplay.cpp lines 228-231): length in
[1,5], no leading minus, full strtoul consumption, value in [1024,65535]; the
unsigned short cast is exact because of the range check. -/
def portTok (s : List Char) : Option Nat :=
  if s.length = 0 ∨ 5 < s.length ∨ s.head? = some '-' then none
  else
    let r := strtoul10 s
    if r.2 ≠ [] ∨ r.1 < 1024 ∨ 65535 < r.1 then none else some r.1

/-- Loop body of get_ports: fuel + i = 3; a fourth token (fuel exhausted) fails,
the first comma-free token triggers the consecutive fill after the bound check
3 + p > i + 1 + 65535 (uxplay.cpp line 236).  The duplicate-check loop at lines
232-234 only breaks out of itself and has no effect. -/
def gpGo : Nat → Nat → List Char → List Nat → Option (List Nat)
  | 0, _, _, _ => none
  | fuel + 1, i, val, acc =>
    match splitFirst ',' val with
    | none =>
      match portTok val with
      | none => none
      | some p =>
        if i + 1 + 65535 < 3 + p then none
        else some (acc ++ (List.range (3 - i)).map (fun k => p + k))
    | some tr =>
      match portTok tr.1 with
      | none => none
      | some p => gpGo fuel (i + 1) tr.2 (acc ++ [p])

/-- get_ports (uxplay.cpp lines 216-247) for nports = 3, the only call pattern. -/
def get_ports (s : List Char) : Option (Nat × Nat × Nat) :=
  match gpGo 3 0 s [] with
  | some (a :: b :: c :: _) => some (a, b, c)
  | _ => none

/-- videoflip_t values used by the option parser. -/
inductive Videoflip where
  | NONE
  | HFLIP
  | VFLIP
  | INVERT
  | LEFT
  | RIGHT
deriving DecidableEq

/-- get_videoflip (uxplay.cpp lines 249-265); an empty argv string has first
byte NUL, which falls to the default case. -/
def get_videoflip (s : List Char) : Option Videoflip :=
  if 1 < s.length then none
  else
    match s with
    | 'I' :: _ => some Videoflip.INVERT
    | 'H' :: _ => some Videoflip.HFLIP
    | 'V' :: _ => some Videoflip.VFLIP
    | _ => none

/-- get_videorotate (uxplay.cpp lines 267-280). -/
def get_videorotate (s : List Char) : Option Videoflip :=
  if 1 < s.length then none
  else
    match s with
    | 'L' :: _ => some Videoflip.LEFT
    | 'R' :: _ => some Videoflip.RIGHT
    | _ => none

/-- The configuration state assembled by the argument loop of main
(uxplay.cpp lines 293-301 for the initial values): d0..d4 are display[0..4]
(width, height, refresh rate, max fps, overscan flag). -/
structure Config where
  server_name : List Char
  use_audio : Bool
  use_random_hw_addr : Bool
  debug_log : Bool
  d0 : Nat
  d1 : Nat
  d2 : Nat
  d3 : Nat
  d4 : Nat
  tcp0 : Nat
  tcp1 : Nat
  tcp2 : Nat
  udp0 : Nat
  udp1 : Nat
  udp2 : Nat
  flip : Videoflip
  rot : Videoflip
  videosink : List Char
  audiosink : List Char
  server_timeout : Nat
deriving DecidableEq

/-- The variable values at the top of main before the argument loop. -/
def initConfig : Config :=
  { server_name := strL "UxPlay"
    use_audio := true
    use_random_hw_addr := false
    debug_log := false
    d0 := 0, d1 := 0, d2 := 0, d3 := 0, d4 := 0
    tcp0 := 0, tcp1 := 0, tcp2 := 0
    udp0 := 0, udp1 := 0, udp2 := 0
    flip := Videoflip.NONE
    rot := Videoflip.NONE
    videosink := strL "autovideosink"
    audiosink := strL "autoaudiosink"
    server_timeout := 0 }

/-- Result of the argument loop: normal completion, exit(1) on a bad option,
exit(0) after help/version, or the undefined null dereference reached by
"-p tcp" / "-p udp" at the very end of argv (argv[argc] is NULL and is handed
to std::string). -/
inductive PResult where
  | ok (c : Config)
  | exit1
  | exit0
  | nullDeref
deriving DecidableEq

/-- The argument loop of main (uxplay.cpp lines 312-391), one branch per flag,
in source order.  option_has_value is inlined: a value exists when a next token
exists and its first byte is not a minus sign (an empty next token has first
byte NUL and counts as a value).  The -t branch discards the result of
get_value (line 386), and the plain "-p n" branch copies only udp[1] and
udp[2] from tcp (lines 362-364). -/
def parseLoop : List (List Char) → Config → PResult
  | [], c => PResult.ok c
  | arg :: rest, c =>
    if arg = strL "-n" then
      match rest with
      | [] => PResult.exit1
      | v :: rest2 =>
        if v.head? = some '-' then PResult.exit1
        else parseLoop rest2 { c with server_name := v }
    else if arg = strL "-s" then
      match rest with
      | [] => PResult.exit1
      | v :: rest2 =>
        if v.head? = some '-' then PResult.exit1
        else
          match get_display_settings v with
          | none => PResult.exit1
          | some whr =>
            parseLoop rest2
              { c with d0 := whr.1, d1 := whr.2.1,
                       d2 := match whr.2.2 with | some r => r | none => c.d2 }
    else if arg = strL "-fps" then
      match rest with
      | [] => PResult.exit1
      | v :: rest2 =>
        if v.head? = some '-' then PResult.exit1
        else
          match get_value v 255 with
          | none => PResult.exit1
          | some n => parseLoop rest2 { c with d3 := n }
    else if arg = strL "-o" then parseLoop rest { c with d4 := 1 }
    else if arg = strL "-f" then
      match rest with
      | [] => PResult.exit1
      | v :: rest2 =>
        if v.head? = some '-' then PResult.exit1
        else
          match get_videoflip v with
          | none => PResult.exit1
          | some fl => parseLoop rest2 { c with flip := fl }
    else if arg = strL "-r" then
      match rest with
      | [] => PResult.exit1
      | v :: rest2 =>
        if v.head? = some '-' then PResult.exit1
        else
          match get_videorotate v with
          | none => PResult.exit1
          | some fl => parseLoop rest2 { c with rot := fl }
    else if arg = strL "-p" then
      match rest with
      | [] =>
        PResult.ok { c with tcp0 := 7100, tcp1 := 7000, tcp2 := 7001,
                            udp0 := 7011, udp1 := 6001, udp2 := 6000 }
      | v :: rest2 =>
        if v.head? = some '-' then
          parseLoop (v :: rest2)
            { c with tcp0 := 7100, tcp1 := 7000, tcp2 := 7001,
                     udp0 := 7011, udp1 := 6001, udp2 := 6000 }
        else if v = strL "tcp" then
          match rest2 with
          | [] => PResult.nullDeref
          | w :: rest3 =>
            match get_ports w with
            | none => PResult.exit1
            | some t => parseLoop rest3 { c with tcp0 := t.1, tcp1 := t.2.1, tcp2 := t.2.2 }
        else if v = strL "udp" then
          match rest2 with
          | [] => PResult.nullDeref
          | w :: rest3 =>
            match get_ports w with
            | none => PResult.exit1
            | some t => parseLoop rest3 { c with udp0 := t.1, udp1 := t.2.1, udp2 := t.2.2 }
        else
          match get_ports v with
          | none => PResult.exit1
          | some t =>
            parseLoop rest2
              { c with tcp0 := t.1, tcp1 := t.2.1, tcp2 := t.2.2,
                       udp1 := t.2.1, udp2 := t.2.2 }
    else if arg = strL "-m" then parseLoop rest { c with use_random_hw_addr := true }
    else if arg = strL "-a" then parseLoop rest { c with use_audio := false }
    else if arg = strL "-d" then parseLoop rest { c with debug_log := !c.debug_log }
    else if arg = strL "-h" ∨ arg = strL "-v" then PResult.exit0
    else if arg = strL "-vs" then
      match rest with
      | [] => PResult.exit1
      | v :: rest2 =>
        if v.head? = some '-' then PResult.exit1
        else parseLoop rest2 { c with videosink := v }
    else if arg = strL "-as" then
      match rest with
      | [] => PResult.exit1
      | v :: rest2 =>
        if v.head? = some '-' then PResult.exit1
        else parseLoop rest2 { c with audiosink := v }
    else if arg = strL "-t" then
      match rest with
      | [] => PResult.exit1
      | v :: rest2 =>
        if v.head? = some '-' then PResult.exit1
        else
          parseLoop rest2
            { c with server_timeout := match get_value v 0 with | some n => n | none => 0 }
    else PResult.exit1

/-- The whole argument loop starting from the initial variable values. -/
def parseArgs (args : List (List Char)) : PResult := parseLoop args initConfig

/-- Value of a hexadecimal digit character, in either case. -/
def hexVal? (c : Char) : Option Nat :=
  if 48 ≤ c.toNat ∧ c.toNat ≤ 57 then some (c.toNat - 48)
  else if 97 ≤ c.toNat ∧ c.toNat ≤ 102 then some (c.toNat - 87)
  else if 65 ≤ c.toNat ∧ c.toNat ≤ 70 then some (c.toNat - 55)
  else none

/-- C isxdigit. -/
def isHexC (c : Char) : Bool := (hexVal? c).isSome

def hexV (c : Char) : Nat := (hexVal? c).getD 0

/-- Value of a hexadecimal digit string, most significant digit first. -/
def hexDigsVal (l : List Char) : Nat := l.foldl (fun a c => 16 * a + hexV c) 0

def LONGMAX : Nat := 9223372036854775807

/-- std::stol(str, nullptr, 16): skip whitespace, one optional sign, an
optional 0x prefix when a hexadecimal digit follows it, then hexadecimal
digits; none models the exception thrown when no digits are consumed
(invalid_argument) or the value leaves the range of long (out_of_range). -/
def stolHex (s : List Char) : Option Int :=
  let t := s.dropWhile isSpaceC
  let u0 := if t.head? = some '-' ∨ t.head? = some '+' then t.tail else t
  let u :=
    match u0 with
    | c0 :: c1 :: c2 :: r =>
      if c0 = '0' ∧ (c1 = 'x' ∨ c1 = 'X') ∧ isHexC c2 = true then c2 :: r else u0
    | _ => u0
  let ds := u.takeWhile isHexC
  if ds = [] then none
  else
    let v := hexDigsVal ds
    if t.head? = some '-' then
      if LONGMAX + 1 < v then none else some (-(v : Int))
    else
      if LONGMAX < v then none else some (v : Int)

/-- Loop of parse_hw_addr (uxplay.cpp lines 108-113): starting at each index
i = 0, 3, 6, ... it converts the suffix with stol base 16 and pushes the char
cast of the value (the byte value modulo 256). -/
def parse_hw_go (s : List Char) : Option (List Nat) :=
  if s = [] then some []
  else
    match stolHex s with
    | none => none
    | some v =>
      match parse_hw_go (s.drop 3) with
      | none => none
      | some bs => some ((v % 256).toNat :: bs)
termination_by s.length
decreasing_by
  simp only [List.length_drop]
  cases s with
  | nil => simp_all
  | cons a t => simp only [List.length_cons]; omega

/-- parse_hw_addr (uxplay.cpp lines 108-113). -/
def parse_hw_addr (s : List Char) : Option (List Nat) := parse_hw_go s

/-- Lowercase hexadecimal digit character, as produced by printf %02x. -/
def hexChar (d : Nat) : Char :=
  if d < 10 then Char.ofNat (48 + d) else Char.ofNat (87 + d)

/-- snprintf(str, 3, "%02x", b) for b < 256: exactly two lowercase digits. -/
def toHex2 (b : Nat) : List Char := [hexChar (b / 16), hexChar (b % 16)]

/-- First octet of random_mac (uxplay.cpp lines 133-135): octet = rand() % 64,
then octet = (octet << 1) + LOCAL, then octet = (octet << 1) + MULTICAST with
LOCAL = 1 and MULTICAST = 0. -/
def macByte0 (r : Nat) : Nat := ((r % 64) * 2 + 1) * 2

/-- random_mac (uxplay.cpp lines 131-145) as a function of the six successive
rand() results. -/
def random_mac (r0 r1 r2 r3 r4 r5 : Nat) : List Char :=
  toHex2 (macByte0 r0) ++ ':' ::
    (toHex2 (r1 % 256) ++ ':' ::
      (toHex2 (r2 % 256) ++ ':' ::
        (toHex2 (r3 % 256) ++ ':' ::
          (toHex2 (r4 % 256) ++ ':' :: toHex2 (r5 % 256)))))

/-- A colon-separated text of two-character groups. -/
def pairsText : List (Char × Char) → List Char
  | [] => []
  | [p] => [p.1, p.2]
  | p :: ps => p.1 :: p.2 :: ':' :: pairsText ps

/-- The byte encoded by one two-hex-digit group. -/
def pairVal (p : Char × Char) : Nat := 16 * hexV p.1 + hexV p.2

/-- State touched by the watchdog tick and the connection callbacks:
counter and open_connections are C unsigned ints (values below 2^32),
relaunch_server is set before the loop runs and cleared by the signal
handlers, quit models g_main_loop_quit having been called. -/
structure WDState where
  counter : Nat
  connections_stopped : Bool
  open_connections : Nat
  relaunch_server : Bool
  quit : Bool
deriving DecidableEq

def U32 : Nat := 4294967296

/-- connection_callback (uxplay.cpp lines 64-74) with server_timeout = t:
while connections_stopped is false the counter is cleared; otherwise the
pre-incremented counter is compared with the timeout and on equality the loop
is quit. -/
def tick (t : Nat) (s : WDState) : WDState :=
  if s.connections_stopped = false then { s with counter := 0 }
  else
    let c := (s.counter + 1) % U32
    if c = t then { s with counter := c, quit := true }
    else { s with counter := c }

/-- conn_init (uxplay.cpp lines 427-432): increment the unsigned counter and
clear connections_stopped. -/
def conn_init (s : WDState) : WDState :=
  { s with open_connections := (s.open_connections + 1) % U32
           connections_stopped := false }

/-- conn_destroy (uxplay.cpp lines 434-441): decrement the unsigned counter
(wrapping modulo 2^32) and set connections_stopped only when the
post-decrement value is zero. -/
def conn_destroy (s : WDState) : WDState :=
  let o := (s.open_connections + (U32 - 1)) % U32
  { s with open_connections := o
           connections_stopped := if o = 0 then true else s.connections_stopped }

/-- The destroy calls stop_server can issue, in source order. -/
inductive SubOp where
  | destroyRaop
  | unregRaop
  | unregAirplay
  | destroyDnssd
  | destroyAudio
  | destroyVideo
  | destroyLogger
deriving DecidableEq

/-- Whether each global subsystem handle is non-null. -/
structure Handles where
  raop : Bool
  dnssd : Bool
  audio_renderer : Bool
  video_renderer : Bool
  render_logger : Bool
deriving DecidableEq

/-- stop_server (uxplay.cpp lines 605-614): each destroy is guarded by a
non-null test, no pointer is ever reset, and the function returns 0; the
result is the unchanged handle state paired with the destroy calls issued. -/
def stop_server (h : Handles) : Handles × List SubOp :=
  (h,
    (if h.raop then [SubOp.destroyRaop] else []) ++
    (if h.dnssd then [SubOp.unregRaop] else []) ++
    (if h.dnssd then [SubOp.unregAirplay] else []) ++
    (if h.dnssd then [SubOp.destroyDnssd] else []) ++
    (if h.audio_renderer then [SubOp.destroyAudio] else []) ++
    (if h.video_renderer then [SubOp.destroyVideo] else []) ++
    (if h.render_logger then [SubOp.destroyLogger] else []))

/-- Effect of start_server on the caller-owned configuration (uxplay.cpp lines
536-539): when the video sink is the literal "0" it overwrites display[3]
(max fps) with 1; the display array is the only caller-owned configuration
datum start_server writes to (name, sinks, use_audio and hw_addr are passed by
value, tcp and udp are only read). -/
def startConfigEffect (c : Config) : Config :=
  if c.videosink = strL "0" then { c with d3 := 1 } else c

/-- The configuration produced by parsing -s 1280x720@30 -fps 24 -p 7000 -t 5:
note udp0 stays 0 because the copy loop at lines 362-364 starts at j = 1. -/
def cfgC1 : Config :=
  { initConfig with d0 := 1280, d1 := 720, d2 := 30, d3 := 24,
                    tcp0 := 7000, tcp1 := 7001, tcp2 := 7002,
                    udp1 := 7001, udp2 := 7002,
                    server_timeout := 5 }

/-! Helper lemmas: digit strings, strtoul, splitFirst and the segment checks. -/

theorem takeWhile_all {p : Char → Bool} :
    ∀ l : List Char, (∀ c ∈ l, p c = true) → l.takeWhile p = l := by
  intro l h
  induction l with
  | nil => rfl
  | cons a t ih =>
    rw [List.takeWhile_cons, if_pos (h a (by simp))]
    rw [ih (fun c hc => h c (by simp [hc]))]

theorem dropWhile_all {p : Char → Bool} :
    ∀ l : List Char, (∀ c ∈ l, p c = true) → l.dropWhile p = [] := by
  intro l h
  induction l with
  | nil => rfl
  | cons a t ih =>
    rw [List.dropWhile_cons, if_pos (h a (by simp))]
    exact ih (fun c hc => h c (by simp [hc]))

theorem mem_takeWhile_true {p : Char → Bool} :
    ∀ (l : List Char) (c : Char), c ∈ l.takeWhile p → p c = true := by
  intro l
  induction l with
  | nil => intro c hc; simp [List.takeWhile] at hc
  | cons a t ih =>
    intro c hc
    rw [List.takeWhile_cons] at hc
    by_cases hpa : p a = true
    · rw [if_pos hpa] at hc
      rcases List.mem_cons.mp hc with h1 | h2
      · exact h1 ▸ hpa
      · exact ih c h2
    · rw [if_neg hpa] at hc
      simp at hc

theorem dval_le_nine {c : Char} (h : isDigitC c = true) : dval c ≤ 9 := by
  simp only [isDigitC, decide_eq_true_eq] at h
  unfold dval
  omega

theorem digit_not_space {c : Char} (h : isDigitC c = true) : isSpaceC c = false := by
  simp only [isDigitC, decide_eq_true_eq] at h
  simp only [isSpaceC, decide_eq_false_iff_not]
  omega

theorem digit_ne {c : Char} (h : isDigitC c = true) (c0 : Char) (h0 : isDigitC c0 = false) :
    c ≠ c0 := by
  intro heq
  rw [heq, h0] at h
  cases h

theorem not_mem_of_allDigits {l : List Char} (h : allDigits l) {c0 : Char}
    (h0 : isDigitC c0 = false) : c0 ∉ l := by
  intro hm
  have := h c0 hm
  rw [this] at h0
  cases h0

theorem cleanStr_split {p q : List Char} (h : cleanStr (p ++ q)) : cleanStr p ∧ cleanStr q :=
  ⟨fun c hc => h c (List.mem_append.mpr (Or.inl hc)),
   fun c hc => h c (List.mem_append.mpr (Or.inr hc))⟩

theorem cleanStr_tail {a : Char} {q : List Char} (h : cleanStr (a :: q)) : cleanStr q :=
  fun c hc => h c (List.mem_cons.mpr (Or.inr hc))

theorem foldl_decVal_lt :
    ∀ (l : List Char) (a : Nat), (∀ c ∈ l, isDigitC c = true) →
      List.foldl (fun x c => 10 * x + dval c) a l < (a + 1) * 10 ^ l.length := by
  intro l
  induction l with
  | nil =>
    intro a _
    simp only [List.foldl_nil, List.length_nil, pow_zero, mul_one]
    omega
  | cons c t ih =>
    intro a h
    rw [List.foldl_cons, List.length_cons]
    have hd : dval c ≤ 9 := dval_le_nine (h c (by simp))
    have h1 := ih (10 * a + dval c) (fun x hx => h x (by simp [hx]))
    refine lt_of_lt_of_le h1 ?_
    have h2 : 10 * a + dval c + 1 ≤ (a + 1) * 10 := by omega
    calc (10 * a + dval c + 1) * 10 ^ t.length
        ≤ ((a + 1) * 10) * 10 ^ t.length := mul_le_mul_right' h2 _
      _ = (a + 1) * 10 ^ (t.length + 1) := by ring

theorem decVal_lt {l : List Char} (h : allDigits l) : decVal l < 10 ^ l.length := by
  have := foldl_decVal_lt l 0 h
  simpa [decVal] using this

theorem decVal_lt_of_len {l : List Char} (h : allDigits l) {m : Nat} (hl : l.length ≤ m) :
    decVal l < 10 ^ m := by
  have h1 := decVal_lt h
  have h2 : (10 : Nat) ^ l.length ≤ 10 ^ m := Nat.pow_le_pow_right (by norm_num) hl
  omega

theorem strtoul10_digits (s : List Char) (h0 : s ≠ []) (hd : allDigits s)
    (hv : decVal s ≤ ULONGMAX) : strtoul10 s = (decVal s, []) := by
  obtain ⟨c, t, rfl⟩ : ∃ c t, s = c :: t := by
    cases s with
    | nil => exact absurd rfl h0
    | cons c t => exact ⟨c, t, rfl⟩
  have hc : isDigitC c = true := hd c (by simp)
  have h1 : (c :: t).dropWhile isSpaceC = c :: t := by
    rw [List.dropWhile_cons, if_neg (by simp [digit_not_space hc])]
  have h2 : ¬((c :: t).head? = some '-' ∨ (c :: t).head? = some '+') := by
    simp only [List.head?_cons, Option.some.injEq, not_or]
    exact ⟨digit_ne hc '-' (by decide), digit_ne hc '+' (by decide)⟩
  have h3 : (c :: t).takeWhile isDigitC = c :: t := takeWhile_all _ hd
  have h4 : (c :: t).dropWhile isDigitC = [] := dropWhile_all _ hd
  have h5 : ¬((c :: t).head? = some '-') := fun hx => h2 (Or.inl hx)
  simp only [strtoul10, h1, if_neg h2, h3, h4, if_neg h5]
  rw [if_neg (by simp)]
  rw [min_eq_left hv]

theorem strtoul10_consumed (c : Char) (t : List Char)
    (hsp : isSpaceC c = false) (hm : c ≠ '-') (hp : c ≠ '+')
    (hcons : (strtoul10 (c :: t)).2 = []) :
    allDigits (c :: t) ∧ (strtoul10 (c :: t)).1 = min (decVal (c :: t)) ULONGMAX := by
  have h1 : (c :: t).dropWhile isSpaceC = c :: t := by
    rw [List.dropWhile_cons, if_neg (by simp [hsp])]
  have h2 : ¬((c :: t).head? = some '-' ∨ (c :: t).head? = some '+') := by
    simp only [List.head?_cons, Option.some.injEq, not_or]
    exact ⟨hm, hp⟩
  have h5 : ¬((c :: t).head? = some '-') := fun hx => h2 (Or.inl hx)
  by_cases htw : (c :: t).takeWhile isDigitC = []
  · have : (strtoul10 (c :: t)).2 = c :: t := by
      simp only [strtoul10, h1, if_neg h2, htw]
      rfl
    rw [this] at hcons
    cases hcons
  · have hrem : (strtoul10 (c :: t)).2 = (c :: t).dropWhile isDigitC := by
      simp only [strtoul10, h1, if_neg h2, if_neg htw]
    rw [hrem] at hcons
    have htw2 : (c :: t).takeWhile isDigitC = c :: t := by
      have hx := List.takeWhile_append_dropWhile isDigitC (c :: t)
      rw [hcons, List.append_nil] at hx
      exact hx
    have hall : allDigits (c :: t) := fun x hx =>
      mem_takeWhile_true _ x (htw2 ▸ hx)
    refine ⟨hall, ?_⟩
    simp only [strtoul10, h1, if_neg h2, if_neg htw, htw2, if_neg h5]
    simp

theorem dispSeg_of_digits {m : Nat} (hm : m ≤ 4) {s : List Char}
    (hd : allDigits s) (h0 : s ≠ []) (h2 : s.length ≤ m) (h3 : decVal s ≠ 0) :
    dispSeg m s = some (decVal s) := by
  have hlt : decVal s < 10000 := by
    have := decVal_lt_of_len hd (le_trans h2 hm)
    norm_num at this
    omega
  have hst := strtoul10_digits s h0 hd (by unfold ULONGMAX; omega)
  have hhead : s.head? ≠ some '-' := by
    obtain ⟨c, t, rfl⟩ : ∃ c t, s = c :: t := by
      cases s with
      | nil => exact absurd rfl h0
      | cons c t => exact ⟨c, t, rfl⟩
    intro he
    exact digit_ne (hd c (by simp)) '-' (by decide) (Option.some.inj he)
  have hg1 : ¬(s.length = 0 ∨ m < s.length ∨ s.head? = some '-') := by
    push_neg
    exact ⟨fun hl => h0 (List.length_eq_zero.mp hl), h2, hhead⟩
  simp only [dispSeg, if_neg hg1, hst]
  rw [if_neg]
  · rw [Nat.mod_eq_of_lt (by omega)]
  · rw [Nat.mod_eq_of_lt (by omega)]
    simp [h3]

theorem dispSeg_some {m : Nat} (hm : m ≤ 4) {s : List Char} (hclean : cleanStr s) {v : Nat}
    (h : dispSeg m s = some v) :
    allDigits s ∧ s ≠ [] ∧ s.length ≤ m ∧ v = decVal s ∧ decVal s ≠ 0 := by
  simp only [dispSeg] at h
  split at h
  · cases h
  · rename_i hg1
    push_neg at hg1
    obtain ⟨hl0, hlm, hhm⟩ := hg1
    have hne : s ≠ [] := fun he => hl0 (by simp [he])
    obtain ⟨c, t, rfl⟩ : ∃ c t, s = c :: t := by
      cases s with
      | nil => exact absurd rfl hne
      | cons c t => exact ⟨c, t, rfl⟩
    split at h
    · cases h
    · rename_i hg2
      push_neg at hg2
      obtain ⟨hcons, hw⟩ := hg2
      have hhd := hclean c (by simp)
      have hcmin : c ≠ '-' := by
        intro he
        exact hhm (by simp [he])
      obtain ⟨hall, hval⟩ := strtoul10_consumed c t hhd.1 hcmin hhd.2 hcons
      have hlt : decVal (c :: t) < 10000 := by
        have := decVal_lt_of_len hall (le_trans hlm hm)
        norm_num at this
        omega
      have hv1 : (strtoul10 (c :: t)).1 = decVal (c :: t) := by
        rw [hval, min_eq_left]
        unfold ULONGMAX
        omega
      rw [hv1] at h hw
      rw [Nat.mod_eq_of_lt (by omega)] at h hw
      have hvv : v = decVal (c :: t) := by
        have := Option.some.inj h
        omega
      exact ⟨hall, hne, hlm, hvv, hw⟩

theorem portTok_of_digits {s : List Char}
    (hd : allDigits s) (h0 : s ≠ []) (h2 : s.length ≤ 5)
    (hlo : 1024 ≤ decVal s) (hhi : decVal s ≤ 65535) :
    portTok s = some (decVal s) := by
  have hst := strtoul10_digits s h0 hd (by unfold ULONGMAX; omega)
  have hhead : s.head? ≠ some '-' := by
    obtain ⟨c, t, rfl⟩ : ∃ c t, s = c :: t := by
      cases s with
      | nil => exact absurd rfl h0
      | cons c t => exact ⟨c, t, rfl⟩
    intro he
    exact digit_ne (hd c (by simp)) '-' (by decide) (Option.some.inj he)
  have hg1 : ¬(s.length = 0 ∨ 5 < s.length ∨ s.head? = some '-') := by
    push_neg
    exact ⟨fun hl => h0 (List.length_eq_zero.mp hl), h2, hhead⟩
  simp only [portTok, if_neg hg1, hst]
  rw [if_neg]
  simp
  omega

theorem portTok_some {s : List Char} (hclean : cleanStr s) {v : Nat}
    (h : portTok s = some v) :
    allDigits s ∧ s ≠ [] ∧ s.length ≤ 5 ∧ v = decVal s ∧ 1024 ≤ decVal s ∧ decVal s ≤ 65535 := by
  simp only [portTok] at h
  split at h
  · cases h
  · rename_i hg1
    push_neg at hg1
    obtain ⟨hl0, hlm, hhm⟩ := hg1
    have hne : s ≠ [] := fun he => hl0 (by simp [he])
    obtain ⟨c, t, rfl⟩ : ∃ c t, s = c :: t := by
      cases s with
      | nil => exact absurd rfl hne
      | cons c t => exact ⟨c, t, rfl⟩
    split at h
    · cases h
    · rename_i hg2
      push_neg at hg2
      obtain ⟨hcons, hlo, hhi⟩ := hg2
      have hhd := hclean c (by simp)
      have hcmin : c ≠ '-' := by
        intro he
        exact hhm (by simp [he])
      obtain ⟨hall, hval⟩ := strtoul10_consumed c t hhd.1 hcmin hhd.2 hcons
      have hlt : decVal (c :: t) < 100000 := by
        have := decVal_lt_of_len hall hlm
        norm_num at this
        omega
      have hv1 : (strtoul10 (c :: t)).1 = decVal (c :: t) := by
        rw [hval, min_eq_left]
        unfold ULONGMAX
        omega
      rw [hv1] at h hlo hhi
      have hvv : v = decVal (c :: t) := (Option.some.inj h).symm
      exact ⟨hall, hne, hlm, hvv, by omega, by omega⟩

theorem splitFirst_none {c : Char} : ∀ {s : List Char}, c ∉ s → splitFirst c s = none := by
  intro s
  induction s with
  | nil => intro _; rfl
  | cons a t ih =>
    intro h
    have ha : a ≠ c := fun he => h (by simp [he])
    simp only [splitFirst, if_neg ha]
    rw [ih (fun hm => h (by simp [hm]))]

theorem splitFirst_none_not_mem {c : Char} : ∀ {s : List Char},
    splitFirst c s = none → c ∉ s := by
  intro s
  induction s with
  | nil =>
    intro _ hm
    cases hm
  | cons a t ih =>
    intro h hm
    simp only [splitFirst] at h
    by_cases hac : a = c
    · rw [if_pos hac] at h
      cases h
    · rcases List.mem_cons.mp hm with h1 | h2
      · exact hac h1.symm
      · rw [if_neg hac] at h
        cases hsp : splitFirst c t with
        | none => exact ih hsp h2
        | some p =>
          rw [hsp] at h
          cases h

theorem splitFirst_append {c : Char} : ∀ {p : List Char} (q : List Char), c ∉ p →
    splitFirst c (p ++ c :: q) = some (p, q) := by
  intro p
  induction p with
  | nil => intro q _; simp [splitFirst]
  | cons a t ih =>
    intro q h
    have ha : a ≠ c := fun he => h (by simp [he])
    simp only [List.cons_append, splitFirst, if_neg ha, List.append_eq]
    rw [ih q (fun hm => h (by simp [hm]))]

theorem splitFirst_sound {c : Char} : ∀ {s p q : List Char},
    splitFirst c s = some (p, q) → s = p ++ c :: q ∧ c ∉ p := by
  intro s
  induction s with
  | nil => intro p q h; cases h
  | cons a t ih =>
    intro p q h
    simp only [splitFirst] at h
    by_cases hac : a = c
    · rw [if_pos hac] at h
      simp only [Option.some.injEq, Prod.mk.injEq] at h
      obtain ⟨h1, h2⟩ := h
      subst h1
      subst h2
      subst hac
      exact ⟨by simp, by simp⟩
    · rw [if_neg hac] at h
      cases hsp : splitFirst c t with
      | none =>
        rw [hsp] at h
        cases h
      | some pr =>
        rw [hsp] at h
        simp only [Option.some.injEq, Prod.mk.injEq] at h
        obtain ⟨h1, h2⟩ := h
        have hpr : splitFirst c t = some (pr.1, pr.2) := by rw [hsp]
        obtain ⟨hs, hn⟩ := ih hpr
        subst h1
        subst h2
        constructor
        · rw [hs]
          simp
        · intro hmem
          rcases List.mem_cons.mp hmem with h3 | h4
          · exact hac h3.symm
          · exact hn h4

/-! Characterization of get_display_settings and get_ports. -/

theorem gds_no_rate {wd hd2 : List Char}
    (h1 : allDigits wd) (h2 : allDigits hd2)
    (l1 : wd ≠ []) (l2 : wd.length ≤ 4) (l3 : hd2 ≠ []) (l4 : hd2.length ≤ 4)
    (n1 : decVal wd ≠ 0) (n2 : decVal hd2 ≠ 0) :
    get_display_settings (wd ++ 'x' :: hd2) = some (decVal wd, decVal hd2, none) := by
  have hx : 'x' ∉ wd := not_mem_of_allDigits h1 (by decide)
  have hat : '@' ∉ hd2 := not_mem_of_allDigits h2 (by decide)
  simp only [get_display_settings, splitFirst_append hd2 hx,
             dispSeg_of_digits (le_refl 4) h1 l1 l2 n1,
             splitFirst_none hat,
             dispSeg_of_digits (le_refl 4) h2 l3 l4 n2]

theorem gds_rate {wd hd2 rd : List Char}
    (h1 : allDigits wd) (h2 : allDigits hd2) (h3 : allDigits rd)
    (l1 : wd ≠ []) (l2 : wd.length ≤ 4) (l3 : hd2 ≠ []) (l4 : hd2.length ≤ 4)
    (l5 : rd ≠ []) (l6 : rd.length ≤ 3)
    (n1 : decVal wd ≠ 0) (n2 : decVal hd2 ≠ 0) (n3 : decVal rd ≠ 0) (n4 : decVal rd ≤ 255) :
    get_display_settings (wd ++ 'x' :: (hd2 ++ '@' :: rd)) =
      some (decVal wd, decVal hd2, some (decVal rd)) := by
  have hx : 'x' ∉ wd := not_mem_of_allDigits h1 (by decide)
  have hat : '@' ∉ hd2 := not_mem_of_allDigits h2 (by decide)
  simp only [get_display_settings, splitFirst_append (hd2 ++ '@' :: rd) hx,
             dispSeg_of_digits (le_refl 4) h1 l1 l2 n1,
             splitFirst_append rd hat,
             dispSeg_of_digits (by norm_num : (3 : Nat) ≤ 4) h3 l5 l6 n3,
             dispSeg_of_digits (le_refl 4) h2 l3 l4 n2]
  rw [if_neg (by omega)]

theorem gds_sound {s : List Char} (hclean : cleanStr s) {w hh : Nat} {ro : Option Nat}
    (h : get_display_settings s = some (w, hh, ro)) :
    ∃ wd rest, s = wd ++ 'x' :: rest ∧ allDigits wd ∧ wd ≠ [] ∧ wd.length ≤ 4 ∧
      w = decVal wd ∧ w ≠ 0 ∧
      ((ro = none ∧ '@' ∉ rest ∧ allDigits rest ∧ rest ≠ [] ∧ rest.length ≤ 4 ∧
        hh = decVal rest ∧ hh ≠ 0) ∨
       (∃ r hd2 rd, ro = some r ∧ rest = hd2 ++ '@' :: rd ∧
         allDigits hd2 ∧ hd2 ≠ [] ∧ hd2.length ≤ 4 ∧ hh = decVal hd2 ∧ hh ≠ 0 ∧
         allDigits rd ∧ rd ≠ [] ∧ rd.length ≤ 3 ∧ r = decVal rd ∧ r ≠ 0 ∧ r ≤ 255)) := by
  unfold get_display_settings at h
  cases hsp : splitFirst 'x' s with
  | none => rw [hsp] at h; cases h
  | some wr =>
    simp only [hsp] at h
    have hso : splitFirst 'x' s = some (wr.1, wr.2) := by rw [hsp]
    obtain ⟨hseq, _⟩ := splitFirst_sound hso
    have hcw : cleanStr wr.1 := (cleanStr_split (hseq ▸ hclean)).1
    have hcrest : cleanStr wr.2 := cleanStr_tail (cleanStr_split (hseq ▸ hclean)).2
    cases hds : dispSeg 4 wr.1 with
    | none => rw [hds] at h; cases h
    | some w0 =>
      simp only [hds] at h
      obtain ⟨hdg, hne, hlen, hveq, hnz⟩ := dispSeg_some (le_refl 4) hcw hds
      cases hat : splitFirst '@' wr.2 with
      | none =>
        simp only [hat] at h
        cases hds2 : dispSeg 4 wr.2 with
        | none => rw [hds2] at h; cases h
        | some g0 =>
          simp only [hds2] at h
          simp only [Option.some.injEq, Prod.mk.injEq] at h
          obtain ⟨hw, hg, hro⟩ := h
          obtain ⟨hdg2, hne2, hlen2, hveq2, hnz2⟩ := dispSeg_some (le_refl 4) hcrest hds2
          have hatnot : '@' ∉ wr.2 := splitFirst_none_not_mem hat
          refine ⟨wr.1, wr.2, hseq, hdg, hne, hlen, ?_, ?_,
            Or.inl ⟨hro.symm, hatnot, hdg2, hne2, hlen2, ?_, ?_⟩⟩
          · omega
          · omega
          · omega
          · omega
      | some hr =>
        simp only [hat] at h
        have hato : splitFirst '@' wr.2 = some (hr.1, hr.2) := by rw [hat]
        obtain ⟨hres, _⟩ := splitFirst_sound hato
        have hch : cleanStr hr.1 := (cleanStr_split (hres ▸ hcrest)).1
        have hcr : cleanStr hr.2 := cleanStr_tail (cleanStr_split (hres ▸ hcrest)).2
        cases hds3 : dispSeg 3 hr.2 with
        | none => rw [hds3] at h; cases h
        | some r0 =>
          simp only [hds3] at h
          obtain ⟨hdg3, hne3, hlen3, hveq3, hnz3⟩ :=
            dispSeg_some (by norm_num : (3 : Nat) ≤ 4) hcr hds3
          by_cases h255 : 255 < r0
          · rw [if_pos h255] at h
            cases h
          · rw [if_neg h255] at h
            cases hds4 : dispSeg 4 hr.1 with
            | none => rw [hds4] at h; cases h
            | some g0 =>
              simp only [hds4] at h
              simp only [Option.some.injEq, Prod.mk.injEq] at h
              obtain ⟨hw, hg, hro⟩ := h
              obtain ⟨hdg4, hne4, hlen4, hveq4, hnz4⟩ := dispSeg_some (le_refl 4) hch hds4
              refine ⟨wr.1, wr.2, hseq, hdg, hne, hlen, by omega, by omega,
                Or.inr ⟨r0, hr.1, hr.2, hro.symm, hres, hdg4, hne4, hlen4, by omega, by omega,
                        hdg3, hne3, hlen3, hveq3, by omega, by omega⟩⟩

/-- One-step unfolding of the get_ports loop at fuel 3. -/
theorem gpGo3_eq (i : Nat) (val : List Char) (acc : List Nat) :
    gpGo 3 i val acc =
      match splitFirst ',' val with
      | none =>
        match portTok val with
        | none => none
        | some p =>
          if i + 1 + 65535 < 3 + p then none
          else some (acc ++ (List.range (3 - i)).map (fun k => p + k))
      | some tr =>
        match portTok tr.1 with
        | none => none
        | some p => gpGo 2 (i + 1) tr.2 (acc ++ [p]) := rfl

/-- One-step unfolding of the get_ports loop at fuel 2. -/
theorem gpGo2_eq (i : Nat) (val : List Char) (acc : List Nat) :
    gpGo 2 i val acc =
      match splitFirst ',' val with
      | none =>
        match portTok val with
        | none => none
        | some p =>
          if i + 1 + 65535 < 3 + p then none
          else some (acc ++ (List.range (3 - i)).map (fun k => p + k))
      | some tr =>
        match portTok tr.1 with
        | none => none
        | some p => gpGo 1 (i + 1) tr.2 (acc ++ [p]) := rfl

/-- One-step unfolding of the get_ports loop at fuel 1. -/
theorem gpGo1_eq (i : Nat) (val : List Char) (acc : List Nat) :
    gpGo 1 i val acc =
      match splitFirst ',' val with
      | none =>
        match portTok val with
        | none => none
        | some p =>
          if i + 1 + 65535 < 3 + p then none
          else some (acc ++ (List.range (3 - i)).map (fun k => p + k))
      | some tr =>
        match portTok tr.1 with
        | none => none
        | some p => gpGo 0 (i + 1) tr.2 (acc ++ [p]) := rfl

theorem gpGo0_eq (i : Nat) (val : List Char) (acc : List Nat) :
    gpGo 0 i val acc = none := rfl

theorem gp_one {t : List Char} (hd : allDigits t) (h0 : t ≠ []) (h5 : t.length ≤ 5)
    (hlo : 1024 ≤ decVal t) (hhi : decVal t ≤ 65533) :
    get_ports t = some (decVal t, decVal t + 1, decVal t + 2) := by
  have hcomma : splitFirst ',' t = none := splitFirst_none (not_mem_of_allDigits hd (by decide))
  have hpt : portTok t = some (decVal t) := portTok_of_digits hd h0 h5 hlo (by omega)
  have hmap : (List.range (3 - 0)).map (fun k => decVal t + k) =
      [decVal t, decVal t + 1, decVal t + 2] := by
    simp [List.range_succ]
  simp only [get_ports, gpGo3_eq, hcomma, hpt, if_neg (by omega : ¬(0 + 1 + 65535 < 3 + decVal t)),
             hmap, List.nil_append]

theorem gp_two {t1 t2 : List Char}
    (hd1 : allDigits t1) (h01 : t1 ≠ []) (h51 : t1.length ≤ 5)
    (hd2 : allDigits t2) (h02 : t2 ≠ []) (h52 : t2.length ≤ 5)
    (hlo1 : 1024 ≤ decVal t1) (hhi1 : decVal t1 ≤ 65535)
    (hlo2 : 1024 ≤ decVal t2) (hhi2 : decVal t2 ≤ 65534) :
    get_ports (t1 ++ ',' :: t2) = some (decVal t1, decVal t2, decVal t2 + 1) := by
  have hnc1 : ',' ∉ t1 := not_mem_of_allDigits hd1 (by decide)
  have hcomma2 : splitFirst ',' t2 = none := splitFirst_none (not_mem_of_allDigits hd2 (by decide))
  have hpt1 : portTok t1 = some (decVal t1) := portTok_of_digits hd1 h01 h51 hlo1 hhi1
  have hpt2 : portTok t2 = some (decVal t2) := portTok_of_digits hd2 h02 h52 hlo2 (by omega)
  have hmap : (List.range (3 - 1)).map (fun k => decVal t2 + k) =
      [decVal t2, decVal t2 + 1] := by
    simp [List.range_succ]
  simp only [get_ports, gpGo3_eq, splitFirst_append t2 hnc1, hpt1, gpGo2_eq, hcomma2, hpt2,
             if_neg (by omega : ¬(1 + 1 + 65535 < 3 + decVal t2)), hmap, List.nil_append,
             List.cons_append, List.singleton_append]

theorem gp_three {t1 t2 t3 : List Char}
    (hd1 : allDigits t1) (h01 : t1 ≠ []) (h51 : t1.length ≤ 5)
    (hd2 : allDigits t2) (h02 : t2 ≠ []) (h52 : t2.length ≤ 5)
    (hd3 : allDigits t3) (h03 : t3 ≠ []) (h53 : t3.length ≤ 5)
    (hlo1 : 1024 ≤ decVal t1) (hhi1 : decVal t1 ≤ 65535)
    (hlo2 : 1024 ≤ decVal t2) (hhi2 : decVal t2 ≤ 65535)
    (hlo3 : 1024 ≤ decVal t3) (hhi3 : decVal t3 ≤ 65535) :
    get_ports (t1 ++ ',' :: (t2 ++ ',' :: t3)) =
      some (decVal t1, decVal t2, decVal t3) := by
  have hnc1 : ',' ∉ t1 := not_mem_of_allDigits hd1 (by decide)
  have hnc2 : ',' ∉ t2 := not_mem_of_allDigits hd2 (by decide)
  have hcomma3 : splitFirst ',' t3 = none := splitFirst_none (not_mem_of_allDigits hd3 (by decide))
  have hpt1 : portTok t1 = some (decVal t1) := portTok_of_digits hd1 h01 h51 hlo1 hhi1
  have hpt2 : portTok t2 = some (decVal t2) := portTok_of_digits hd2 h02 h52 hlo2 hhi2
  have hpt3 : portTok t3 = some (decVal t3) := portTok_of_digits hd3 h03 h53 hlo3 hhi3
  have hmap : (List.range (3 - 2)).map (fun k => decVal t3 + k) = [decVal t3] := by
    simp [List.range_succ]
  simp only [get_ports, gpGo3_eq, splitFirst_append (t2 ++ ',' :: t3) hnc1, hpt1,
             gpGo2_eq, splitFirst_append t3 hnc2, hpt2,
             gpGo1_eq, hcomma3, hpt3,
             if_neg (by omega : ¬(2 + 1 + 65535 < 3 + decVal t3)), hmap, List.nil_append,
             List.cons_append, List.singleton_append]

theorem gp_sound {s : List Char} (hclean : cleanStr s) {a b d : Nat}
    (h : get_ports s = some (a, b, d)) :
    (allDigits s ∧ s ≠ [] ∧ s.length ≤ 5 ∧ a = decVal s ∧ 1024 ≤ a ∧ a ≤ 65533 ∧
     b = a + 1 ∧ d = a + 2)
    ∨ (∃ t1 t2, s = t1 ++ ',' :: t2 ∧
        allDigits t1 ∧ t1 ≠ [] ∧ t1.length ≤ 5 ∧
        allDigits t2 ∧ t2 ≠ [] ∧ t2.length ≤ 5 ∧
        a = decVal t1 ∧ 1024 ≤ a ∧ a ≤ 65535 ∧
        b = decVal t2 ∧ 1024 ≤ b ∧ b ≤ 65534 ∧ d = b + 1)
    ∨ (∃ t1 t2 t3, s = t1 ++ ',' :: (t2 ++ ',' :: t3) ∧
        allDigits t1 ∧ t1 ≠ [] ∧ t1.length ≤ 5 ∧
        allDigits t2 ∧ t2 ≠ [] ∧ t2.length ≤ 5 ∧
        allDigits t3 ∧ t3 ≠ [] ∧ t3.length ≤ 5 ∧
        a = decVal t1 ∧ 1024 ≤ a ∧ a ≤ 65535 ∧
        b = decVal t2 ∧ 1024 ≤ b ∧ b ≤ 65535 ∧
        d = decVal t3 ∧ 1024 ≤ d ∧ d ≤ 65535) := by
  unfold get_ports at h
  rw [gpGo3_eq] at h
  cases hc1 : splitFirst ',' s with
  | none =>
    simp only [hc1] at h
    cases hp1 : portTok s with
    | none => rw [hp1] at h; cases h
    | some p =>
      simp only [hp1] at h
      obtain ⟨hdg, hne, hlen, hveq, hlo, hhi⟩ := portTok_some hclean hp1
      by_cases hguard : 0 + 1 + 65535 < 3 + p
      · rw [if_pos hguard] at h
        cases h
      · rw [if_neg hguard] at h
        have hmap : (List.range (3 - 0)).map (fun k => p + k) = [p, p + 1, p + 2] := by
          simp [List.range_succ]
        rw [hmap] at h
        simp only [List.nil_append, Option.some.injEq, Prod.mk.injEq] at h
        obtain ⟨ha, hb, hd2⟩ := h
        exact Or.inl ⟨hdg, hne, hlen, by omega, by omega, by omega, by omega, by omega⟩
  | some tr =>
    simp only [hc1] at h
    have hc1o : splitFirst ',' s = some (tr.1, tr.2) := by rw [hc1]
    obtain ⟨hseq1, _⟩ := splitFirst_sound hc1o
    have hct1 : cleanStr tr.1 := (cleanStr_split (hseq1 ▸ hclean)).1
    have hcr1 : cleanStr tr.2 := cleanStr_tail (cleanStr_split (hseq1 ▸ hclean)).2
    cases hp1 : portTok tr.1 with
    | none => rw [hp1] at h; cases h
    | some p1 =>
      simp only [hp1] at h
      obtain ⟨hdg1, hne1, hlen1, hveq1, hlo1, hhi1⟩ := portTok_some hct1 hp1
      rw [gpGo2_eq] at h
      cases hc2 : splitFirst ',' tr.2 with
      | none =>
        simp only [hc2] at h
        cases hp2 : portTok tr.2 with
        | none => rw [hp2] at h; cases h
        | some p2 =>
          simp only [hp2] at h
          obtain ⟨hdg2, hne2, hlen2, hveq2, hlo2, hhi2⟩ := portTok_some hcr1 hp2
          by_cases hguard : 1 + 1 + 65535 < 3 + p2
          · rw [if_pos hguard] at h
            cases h
          · rw [if_neg hguard] at h
            have hmap : (List.range (3 - 1)).map (fun k => p2 + k) = [p2, p2 + 1] := by
              simp [List.range_succ]
            rw [hmap] at h
            simp only [List.nil_append, List.cons_append, List.singleton_append,
                       Option.some.injEq, Prod.mk.injEq] at h
            obtain ⟨ha, hb, hd2⟩ := h
            exact Or.inr (Or.inl ⟨tr.1, tr.2, hseq1, hdg1, hne1, hlen1, hdg2, hne2, hlen2,
              by omega, by omega, by omega, by omega, by omega, by omega, by omega⟩)
      | some ur =>
        simp only [hc2] at h
        have hc2o : splitFirst ',' tr.2 = some (ur.1, ur.2) := by rw [hc2]
        obtain ⟨hseq2, _⟩ := splitFirst_sound hc2o
        have hct2 : cleanStr ur.1 := (cleanStr_split (hseq2 ▸ hcr1)).1
        have hcr2 : cleanStr ur.2 := cleanStr_tail (cleanStr_split (hseq2 ▸ hcr1)).2
        cases hp2 : portTok ur.1 with
        | none => rw [hp2] at h; cases h
        | some p2 =>
          simp only [hp2] at h
          obtain ⟨hdg2, hne2, hlen2, hveq2, hlo2, hhi2⟩ := portTok_some hct2 hp2
          rw [gpGo1_eq] at h
          cases hc3 : splitFirst ',' ur.2 with
          | none =>
            simp only [hc3] at h
            cases hp3 : portTok ur.2 with
            | none => rw [hp3] at h; cases h
            | some p3 =>
              simp only [hp3] at h
              obtain ⟨hdg3, hne3, hlen3, hveq3, hlo3, hhi3⟩ := portTok_some hcr2 hp3
              by_cases hguard : 2 + 1 + 65535 < 3 + p3
              · rw [if_pos hguard] at h
                cases h
              · rw [if_neg hguard] at h
                have hmap : (List.range (3 - 2)).map (fun k => p3 + k) = [p3] := by
                  simp [List.range_succ]
                rw [hmap] at h
                simp only [List.nil_append, List.cons_append, List.singleton_append,
                           List.append_assoc, Option.some.injEq, Prod.mk.injEq] at h
                obtain ⟨ha, hb, hd2⟩ := h
                refine Or.inr (Or.inr ⟨tr.1, ur.1, ur.2, ?_, hdg1, hne1, hlen1,
                  hdg2, hne2, hlen2, hdg3, hne3, hlen3,
                  by omega, by omega, by omega, by omega, by omega, by omega,
                  by omega, by omega, by omega⟩)
                rw [hseq1, hseq2]
          | some vr =>
            simp only [hc3] at h
            cases hp3 : portTok vr.1 with
            | none => rw [hp3] at h; cases h
            | some p3 =>
              simp only [hp3, gpGo0_eq] at h
              cases h

/-! Hexadecimal parsing and the hardware-address round trip. -/

theorem hexVal?_cases {c : Char} (h : isHexC c = true) :
    ∃ v, hexVal? c = some v ∧ v < 16 := by
  unfold isHexC at h
  cases hv : hexVal? c with
  | none =>
    rw [hv] at h
    cases h
  | some v =>
    refine ⟨v, rfl, ?_⟩
    unfold hexVal? at hv
    split at hv
    · rename_i hc
      simp only [Option.some.injEq] at hv
      omega
    · split at hv
      · rename_i hc
        simp only [Option.some.injEq] at hv
        omega
      · split at hv
        · rename_i hc
          simp only [Option.some.injEq] at hv
          omega
        · cases hv

theorem hexV_lt {c : Char} (h : isHexC c = true) : hexV c < 16 := by
  obtain ⟨v, hv, hlt⟩ := hexVal?_cases h
  unfold hexV
  rw [hv]
  exact hlt

theorem hex_range {c : Char} (h : isHexC c = true) :
    (48 ≤ c.toNat ∧ c.toNat ≤ 57) ∨ (97 ≤ c.toNat ∧ c.toNat ≤ 102) ∨
    (65 ≤ c.toNat ∧ c.toNat ≤ 70) := by
  obtain ⟨v, hv, _⟩ := hexVal?_cases h
  unfold hexVal? at hv
  split at hv
  · rename_i hc
    exact Or.inl hc
  · split at hv
    · rename_i hc
      exact Or.inr (Or.inl hc)
    · split at hv
      · rename_i hc
        exact Or.inr (Or.inr hc)
      · cases hv

theorem hex_head_facts {c : Char} (h : isHexC c = true) :
    isSpaceC c = false ∧ c ≠ '-' ∧ c ≠ '+' := by
  have hr := hex_range h
  refine ⟨?_, ?_, ?_⟩
  · simp only [isSpaceC, decide_eq_false_iff_not]
    rcases hr with ⟨h1, h2⟩ | ⟨h1, h2⟩ | ⟨h1, h2⟩ <;> omega
  · intro he
    subst he
    revert hr
    decide
  · intro he
    subst he
    revert hr
    decide

theorem stolHex_two (c d : Char) (rest : List Char)
    (hc : isHexC c = true) (hd : isHexC d = true)
    (hr : rest = [] ∨ ∃ r2, rest = ':' :: r2) :
    stolHex (c :: d :: rest) = some ((16 * hexV c + hexV d : Nat) : Int) := by
  obtain ⟨hsp, hm, hp⟩ := hex_head_facts hc
  have h1 : (c :: d :: rest).dropWhile isSpaceC = c :: d :: rest := by
    rw [List.dropWhile_cons, if_neg (by simp [hsp])]
  have h2 : ¬((c :: d :: rest).head? = some '-' ∨ (c :: d :: rest).head? = some '+') := by
    simp only [List.head?_cons, Option.some.injEq, not_or]
    exact ⟨hm, hp⟩
  have h5 : ¬((c :: d :: rest).head? = some '-') := fun hx => h2 (Or.inl hx)
  have hv1 := hexV_lt hc
  have hv2 := hexV_lt hd
  have hvv : hexDigsVal [c, d] = 16 * hexV c + hexV d := by
    simp [hexDigsVal, hexV]
  rcases hr with rfl | ⟨r2, rfl⟩
  · simp only [stolHex, h1, if_neg h2, List.takeWhile_cons, if_pos hc, if_pos hd,
               List.takeWhile_nil, if_neg h5]
    rw [if_neg (by simp), if_neg (by rw [hvv]; unfold LONGMAX; omega), hvv]
  · have hnopre : ¬(c = '0' ∧ (d = 'x' ∨ d = 'X') ∧ isHexC ':' = true) := by
      rintro ⟨-, -, hcol⟩
      exact absurd hcol (by decide)
    simp only [stolHex, h1, if_neg h2, if_neg hnopre, List.takeWhile_cons, if_pos hc, if_pos hd,
               if_neg (by decide : ¬(isHexC ':' = true)), if_neg h5]
    rw [if_neg (by simp), if_neg (by rw [hvv]; unfold LONGMAX; omega), hvv]

theorem hexChar_val : ∀ d : Nat, d < 16 → hexVal? (hexChar d) = some d := by decide

theorem hexChar_hex : ∀ d : Nat, d < 16 → isHexC (hexChar d) = true := by decide

theorem pairsText_ne_nil (p : Char × Char) (ps : List (Char × Char)) :
    pairsText (p :: ps) ≠ [] := by
  cases ps <;> simp [pairsText]

theorem parse_pairs : ∀ ps : List (Char × Char),
    (∀ p ∈ ps, isHexC p.1 = true ∧ isHexC p.2 = true) →
    parse_hw_go (pairsText ps) = some (ps.map pairVal) := by
  intro ps
  induction ps with
  | nil =>
    intro _
    simp [pairsText, parse_hw_go]
  | cons p ps ih =>
    intro h
    obtain ⟨hc, hd⟩ := h p (by simp)
    have hv1 := hexV_lt hc
    have hv2 := hexV_lt hd
    have hbyte : (((16 * hexV p.1 + hexV p.2 : Nat) : Int) % 256).toNat
        = pairVal p := by
      rw [Int.emod_eq_of_lt (by positivity) (by exact_mod_cast (by omega : (16 * hexV p.1 + hexV p.2 : Nat) < 256))]
      rw [Int.toNat_ofNat]
      rfl
    cases ps with
    | nil =>
      have hst : stolHex [p.1, p.2] = some ((16 * hexV p.1 + hexV p.2 : Nat) : Int) :=
        stolHex_two p.1 p.2 [] hc hd (Or.inl rfl)
      have htext : pairsText [p] = [p.1, p.2] := rfl
      rw [htext, parse_hw_go]
      rw [if_neg (by simp)]
      rw [hst]
      have hdrop : ([p.1, p.2] : List Char).drop 3 = [] := rfl
      rw [hdrop, parse_hw_go, if_pos rfl]
      simp only [hbyte, List.map_cons, List.map_nil]
    | cons q qs =>
      have hrest : ∀ x ∈ q :: qs, isHexC x.1 = true ∧ isHexC x.2 = true :=
        fun x hx => h x (by simp [hx])
      have htext : pairsText (p :: q :: qs) = p.1 :: p.2 :: ':' :: pairsText (q :: qs) := rfl
      have hst : stolHex (p.1 :: p.2 :: ':' :: pairsText (q :: qs))
          = some ((16 * hexV p.1 + hexV p.2 : Nat) : Int) :=
        stolHex_two p.1 p.2 (':' :: pairsText (q :: qs)) hc hd (Or.inr ⟨_, rfl⟩)
      rw [htext, parse_hw_go]
      rw [if_neg (by simp)]
      rw [hst]
      have hdrop : (p.1 :: p.2 :: ':' :: pairsText (q :: qs)).drop 3 = pairsText (q :: qs) := rfl
      rw [hdrop, ih hrest]
      simp only [hbyte, List.map_cons]

/-! The watchdog counter under repeated connection-close events. -/

theorem conn_destroy_iter : ∀ (n : Nat) (s : WDState),
    s.open_connections < U32 → n < s.open_connections →
    (conn_destroy^[n] s).open_connections = s.open_connections - n ∧
    (conn_destroy^[n] s).connections_stopped = s.connections_stopped := by
  intro n
  induction n with
  | zero =>
    intro s h1 h2
    simp
  | succ n ih =>
    intro s h1 h2
    rw [Function.iterate_succ_apply]
    have ho : (s.open_connections + (U32 - 1)) % U32 = s.open_connections - 1 := by
      have he : s.open_connections + (U32 - 1) = U32 + (s.open_connections - 1) := by
        unfold U32 at h1 ⊢
        omega
      rw [he, Nat.add_mod_left]
      exact Nat.mod_eq_of_lt (by unfold U32 at h1 ⊢; omega)
    have hop : (conn_destroy s).open_connections = s.open_connections - 1 := by
      simp only [conn_destroy, ho]
    have hst : (conn_destroy s).connections_stopped = s.connections_stopped := by
      simp only [conn_destroy, ho]
      rw [if_neg (by omega)]
    obtain ⟨ih1, ih2⟩ := ih (conn_destroy s)
      (by rw [hop]; unfold U32 at h1 ⊢; omega)
      (by rw [hop]; omega)
    constructor
    · rw [ih1, hop]
      omega
    · rw [ih2, hst]

theorem random_mac_eq (r0 r1 r2 r3 r4 r5 : Nat) :
    random_mac r0 r1 r2 r3 r4 r5 =
      pairsText [(hexChar (macByte0 r0 / 16), hexChar (macByte0 r0 % 16)),
                 (hexChar (r1 % 256 / 16), hexChar (r1 % 256 % 16)),
                 (hexChar (r2 % 256 / 16), hexChar (r2 % 256 % 16)),
                 (hexChar (r3 % 256 / 16), hexChar (r3 % 256 % 16)),
                 (hexChar (r4 % 256 / 16), hexChar (r4 % 256 % 16)),
                 (hexChar (r5 % 256 / 16), hexChar (r5 % 256 % 16))] := rfl

theorem pairVal_hexChar {b : Nat} (hb : b < 256) :
    pairVal (hexChar (b / 16), hexChar (b % 16)) = b := by
  unfold pairVal hexV
  rw [hexChar_val (b / 16) (by omega), hexChar_val (b % 16) (by omega)]
  simp only [Option.getD_some]
  exact Nat.div_add_mod b 16

/-! Theorems for the specification claims. -/

set_option maxHeartbeats 2000000 in
/-- Claim C1: parsing the arguments -s 1280x720@30 -fps 24 -p 7000 -t 5
succeeds, with display = (1280, 720, 30, 24, 0), tcp = (7000, 7001, 7002) and
idle timeout 5 as the claim states — but udp[0] is left 0 ("assign
dynamically") because the copy loop from tcp at uxplay.cpp lines 362-364
starts at j = 1, so udp = (0, 7001, 7002), not (7000, 7001, 7002) as both the
claim and the program's own usage text ("-p n   Use TCP and UDP ports
n,n+1,n+2") state. -/
theorem C1_parse_eval :
    parseArgs (List.map strL ["-s", "1280x720@30", "-fps", "24", "-p", "7000", "-t", "5"])
      = PResult.ok cfgC1
    ∧ cfgC1.d0 = 1280 ∧ cfgC1.d1 = 720 ∧ cfgC1.d2 = 30 ∧ cfgC1.d3 = 24 ∧ cfgC1.d4 = 0
    ∧ cfgC1.tcp0 = 7000 ∧ cfgC1.tcp1 = 7001 ∧ cfgC1.tcp2 = 7002
    ∧ cfgC1.udp0 = 0 ∧ cfgC1.udp1 = 7001 ∧ cfgC1.udp2 = 7002
    ∧ cfgC1.server_timeout = 5 := by decide

/-- Claim C2 counterexample: the width segment of "+128x720" is not 1-4
decimal digits with no leading sign, so by the claim the parser must return
false, yet get_display_settings accepts the string (strtoul tolerates the
plus sign) and stores width 128, height 720. -/
theorem C2_counterexample :
    get_display_settings (strL "+128x720") = some (128, 720, none) := by decide

/-- Claim C2 (amended): for segments made of decimal digits the parser accepts
exactly the claimed forms and recovers the values; conversely, on any string
free of whitespace and plus characters, acceptance forces the claimed
digit-and-range shape of every segment; the claim's example strings are all
rejected.  (The original claim fails only because strtoul skips leading
whitespace and accepts a leading plus sign inside a segment.) -/
theorem C2_amended :
    (∀ wd hd2 : List Char, allDigits wd → allDigits hd2 → wd ≠ [] → wd.length ≤ 4 →
       hd2 ≠ [] → hd2.length ≤ 4 → decVal wd ≠ 0 → decVal hd2 ≠ 0 →
       get_display_settings (wd ++ 'x' :: hd2) = some (decVal wd, decVal hd2, none))
    ∧ (∀ wd hd2 rd : List Char, allDigits wd → allDigits hd2 → allDigits rd →
       wd ≠ [] → wd.length ≤ 4 → hd2 ≠ [] → hd2.length ≤ 4 → rd ≠ [] → rd.length ≤ 3 →
       decVal wd ≠ 0 → decVal hd2 ≠ 0 → decVal rd ≠ 0 → decVal rd ≤ 255 →
       get_display_settings (wd ++ 'x' :: (hd2 ++ '@' :: rd)) =
         some (decVal wd, decVal hd2, some (decVal rd)))
    ∧ (∀ (s : List Char) (w hh : Nat) (ro : Option Nat), cleanStr s →
       get_display_settings s = some (w, hh, ro) →
       ∃ wd rest, s = wd ++ 'x' :: rest ∧ allDigits wd ∧ wd ≠ [] ∧ wd.length ≤ 4 ∧
         w = decVal wd ∧ w ≠ 0 ∧
         ((ro = none ∧ '@' ∉ rest ∧ allDigits rest ∧ rest ≠ [] ∧ rest.length ≤ 4 ∧
           hh = decVal rest ∧ hh ≠ 0) ∨
          (∃ r hd2 rd, ro = some r ∧ rest = hd2 ++ '@' :: rd ∧
            allDigits hd2 ∧ hd2 ≠ [] ∧ hd2.length ≤ 4 ∧ hh = decVal hd2 ∧ hh ≠ 0 ∧
            allDigits rd ∧ rd ≠ [] ∧ rd.length ≤ 3 ∧ r = decVal rd ∧ r ≠ 0 ∧ r ≤ 255)))
    ∧ get_display_settings (strL "0x1080") = none
    ∧ get_display_settings (strL "1920x0") = none
    ∧ get_display_settings (strL "1920x1080@0") = none
    ∧ get_display_settings (strL "1920x1080@256") = none
    ∧ get_display_settings (strL "abcx1080") = none
    ∧ get_display_settings (strL "19201080") = none :=
  ⟨fun _ _ a b c d e f g h => gds_no_rate a b c d e f g h,
   fun _ _ _ a b c d e f g h i j k l m => gds_rate a b c d e f g h i j k l m,
   fun _ _ _ _ hc h => gds_sound hc h,
   by decide, by decide, by decide, by decide, by decide, by decide⟩

/-- Claim C2 witness: the amended theorem instantiated at "1280x720" and
"1280x720@30". -/
theorem C2_amended_witness :
    get_display_settings (strL "1280x720") = some (1280, 720, none)
    ∧ get_display_settings (strL "1280x720@30") = some (1280, 720, some 30) := by
  constructor
  · exact C2_amended.1 (strL "1280") (strL "720") (by decide) (by decide) (by decide)
      (by decide) (by decide) (by decide) (by decide) (by decide)
  · exact C2_amended.2.1 (strL "1280") (strL "720") (strL "30") (by decide) (by decide)
      (by decide) (by decide) (by decide) (by decide) (by decide) (by decide) (by decide)
      (by decide) (by decide) (by decide) (by decide)

/-- Claim C3 counterexample: the token "+7000" has a leading sign, so by the
claim get_ports must return false, yet it is accepted (strtoul tolerates the
plus sign) and yields 7000, 7001, 7002. -/
theorem C3_counterexample :
    get_ports (strL "+7000") = some (7000, 7001, 7002) := by decide

set_option maxHeartbeats 2000000 in
/-- Claim C3 (amended): the claimed concrete behaviours all hold — the three
example strings, the empty-prefix failure, the fill-overflow rejection, the
out-of-range rejections, the general one-, two- and three-token acceptances
over digit tokens, the soundness of acceptance on plus- and whitespace-free
strings, and the bare -p legacy triples (udp = 7011, 6001, 6000 and
tcp = 7100, 7000, 7001) selected without parsing.  (The original claim fails
only because strtoul skips leading whitespace and accepts a leading plus sign
inside a token.) -/
theorem C3_amended :
    get_ports (strL "7000,7001,7002") = some (7000, 7001, 7002)
    ∧ get_ports (strL "7000") = some (7000, 7001, 7002)
    ∧ get_ports (strL "7000,7001") = some (7000, 7001, 7002)
    ∧ get_ports (strL "") = none
    ∧ get_ports (strL "65534") = none
    ∧ get_ports (strL "65533") = some (65533, 65534, 65535)
    ∧ get_ports (strL "1023") = none
    ∧ get_ports (strL "65536") = none
    ∧ (∀ t : List Char, allDigits t → t ≠ [] → t.length ≤ 5 →
       1024 ≤ decVal t → decVal t ≤ 65533 →
       get_ports t = some (decVal t, decVal t + 1, decVal t + 2))
    ∧ (∀ t1 t2 : List Char, allDigits t1 → t1 ≠ [] → t1.length ≤ 5 →
       allDigits t2 → t2 ≠ [] → t2.length ≤ 5 →
       1024 ≤ decVal t1 → decVal t1 ≤ 65535 → 1024 ≤ decVal t2 → decVal t2 ≤ 65534 →
       get_ports (t1 ++ ',' :: t2) = some (decVal t1, decVal t2, decVal t2 + 1))
    ∧ (∀ t1 t2 t3 : List Char, allDigits t1 → t1 ≠ [] → t1.length ≤ 5 →
       allDigits t2 → t2 ≠ [] → t2.length ≤ 5 →
       allDigits t3 → t3 ≠ [] → t3.length ≤ 5 →
       1024 ≤ decVal t1 → decVal t1 ≤ 65535 → 1024 ≤ decVal t2 → decVal t2 ≤ 65535 →
       1024 ≤ decVal t3 → decVal t3 ≤ 65535 →
       get_ports (t1 ++ ',' :: (t2 ++ ',' :: t3)) = some (decVal t1, decVal t2, decVal t3))
    ∧ (∀ (s : List Char) (a b d : Nat), cleanStr s → get_ports s = some (a, b, d) →
       (allDigits s ∧ s ≠ [] ∧ s.length ≤ 5 ∧ a = decVal s ∧ 1024 ≤ a ∧ a ≤ 65533 ∧
        b = a + 1 ∧ d = a + 2)
       ∨ (∃ t1 t2, s = t1 ++ ',' :: t2 ∧
           allDigits t1 ∧ t1 ≠ [] ∧ t1.length ≤ 5 ∧
           allDigits t2 ∧ t2 ≠ [] ∧ t2.length ≤ 5 ∧
           a = decVal t1 ∧ 1024 ≤ a ∧ a ≤ 65535 ∧
           b = decVal t2 ∧ 1024 ≤ b ∧ b ≤ 65534 ∧ d = b + 1)
       ∨ (∃ t1 t2 t3, s = t1 ++ ',' :: (t2 ++ ',' :: t3) ∧
           allDigits t1 ∧ t1 ≠ [] ∧ t1.length ≤ 5 ∧
           allDigits t2 ∧ t2 ≠ [] ∧ t2.length ≤ 5 ∧
           allDigits t3 ∧ t3 ≠ [] ∧ t3.length ≤ 5 ∧
           a = decVal t1 ∧ 1024 ≤ a ∧ a ≤ 65535 ∧
           b = decVal t2 ∧ 1024 ≤ b ∧ b ≤ 65535 ∧
           d = decVal t3 ∧ 1024 ≤ d ∧ d ≤ 65535))
    ∧ parseArgs (List.map strL ["-p"])
        = PResult.ok { initConfig with tcp0 := 7100, tcp1 := 7000, tcp2 := 7001,
                                       udp0 := 7011, udp1 := 6001, udp2 := 6000 }
    ∧ parseArgs (List.map strL ["-p", "-d"])
        = PResult.ok { initConfig with tcp0 := 7100, tcp1 := 7000, tcp2 := 7001,
                                       udp0 := 7011, udp1 := 6001, udp2 := 6000,
                                       debug_log := true } :=
  ⟨by decide, by decide, by decide, by decide, by decide, by decide, by decide, by decide,
   fun _ a b c d e => gp_one a b c d e,
   fun _ _ a b c d e f g h i j => gp_two a b c d e f g h i j,
   fun _ _ _ a b c d e f g h i j k l m n o => gp_three a b c d e f g h i j k l m n o,
   fun _ _ _ _ hc h => gp_sound hc h,
   by decide, by decide⟩

/-- Claim C3 witness: the amended theorem's three-token clause instantiated at
"2000,3000,4000". -/
theorem C3_amended_witness :
    get_ports (strL "2000,3000,4000") = some (2000, 3000, 4000) := by
  obtain ⟨-, -, -, -, -, -, -, -, -, -, h3, -, -, -⟩ := C3_amended
  exact h3 (strL "2000") (strL "3000") (strL "4000") (by decide) (by decide) (by decide)
    (by decide) (by decide) (by decide) (by decide) (by decide) (by decide) (by decide)
    (by decide) (by decide) (by decide) (by decide) (by decide)

set_option maxHeartbeats 2000000 in
/-- Claim C4: other value-taking flags do exit with status 1 on a malformed
value (shown here for -fps), but the -t branch at uxplay.cpp line 386 discards
the result of get_value, so "-t abc" is silently accepted: parsing completes
normally with every variable still at its initial value (server_timeout = 0),
contradicting the claim that every malformed value exits the process. -/
theorem C4_t_eval :
    parseArgs (List.map strL ["-t", "abc"]) = PResult.ok initConfig
    ∧ initConfig.server_timeout = 0
    ∧ parseArgs (List.map strL ["-fps", "abc"]) = PResult.exit1 := by decide

/-- Claim C5 counterexample: in the state at server start (counter 0,
connections_stopped false as set at uxplay.cpp line 409, zero open
connections, relaunch armed), three watchdog ticks with timeout 3 do NOT quit
the loop: the tick handler tests connections_stopped, not the number of open
connections, and resets the counter while it is false — so a server that
never had a connection never relaunches, contradicting the claim that the
counter increments whenever connections are zero. -/
theorem C5_counterexample :
    (WDState.mk 0 false 0 true false).open_connections = 0
    ∧ (tick 3 (tick 3 (tick 3 (WDState.mk 0 false 0 true false)))).quit = false
    ∧ (tick 3 (tick 3 (tick 3 (WDState.mk 0 false 0 true false)))).counter = 0 := by decide

/-- Claim C5 (amended): idle ticks count only once connections_stopped has
been set (by a connection close that reached zero): from such a state with
counter 0 and timeout 3, the loop is still running after two ticks and quits
exactly on the third, leaving relaunch_server as it was; a tick while
connections_stopped is false resets the counter to 0 and never quits; a
connection-open event clears connections_stopped, so the next tick resets
the counter to 0. -/
theorem C5_amended :
    (∀ s : WDState, s.connections_stopped = true → s.counter = 0 → s.quit = false →
       (tick 3 (tick 3 s)).quit = false
       ∧ (tick 3 (tick 3 (tick 3 s))).quit = true
       ∧ (tick 3 (tick 3 (tick 3 s))).relaunch_server = s.relaunch_server)
    ∧ (∀ s : WDState, s.connections_stopped = false → tick 3 s = { s with counter := 0 })
    ∧ (∀ s : WDState, (conn_init s).connections_stopped = false
       ∧ (tick 3 (conn_init s)).counter = 0
       ∧ (tick 3 (conn_init s)).quit = s.quit) := by
  refine ⟨?_, ?_, ?_⟩
  · intro s h1 h2 h3
    have e1 : tick 3 s = { s with counter := 1 } := by
      simp [tick, h1, h2, U32]
    have e2 : tick 3 (tick 3 s) = { s with counter := 2 } := by
      rw [e1]
      simp [tick, h1, U32]
    have e3 : tick 3 (tick 3 (tick 3 s)) = { s with counter := 3, quit := true } := by
      rw [e2]
      simp [tick, h1, U32]
    rw [e3, e2]
    exact ⟨h3, rfl, rfl⟩
  · intro s h1
    simp [tick, h1]
  · intro s
    refine ⟨rfl, ?_, ?_⟩ <;> simp [tick, conn_init]

/-- Claim C5 witness: the amended theorem's armed-watchdog clause at a
concrete state. -/
theorem C5_amended_witness :
    (tick 3 (tick 3 (tick 3 (WDState.mk 0 true 0 true false)))).quit = true :=
  (C5_amended.1 (WDState.mk 0 true 0 true false) rfl rfl rfl).2.1

/-- Claim C6 counterexample: with every handle non-null (the state after a
successful start, since stop_server never resets the pointers), a second
consecutive stop_server issues all seven destroy calls again instead of
performing no operation. -/
theorem C6_counterexample :
    (stop_server ((stop_server (Handles.mk true true true true true)).1)).2
      = [SubOp.destroyRaop, SubOp.unregRaop, SubOp.unregAirplay, SubOp.destroyDnssd,
         SubOp.destroyAudio, SubOp.destroyVideo, SubOp.destroyLogger]
    ∧ (stop_server ((stop_server (Handles.mk true true true true true)).1)).2 ≠ [] := by decide

/-- Claim C6 (amended): each destroy in stop_server is indeed guarded by an
existence test on its handle, but stop_server never nulls the handles, so a
second consecutive call repeats exactly the destroy calls of the first; the
second call performs no operation only in the never-started state where every
handle is null. -/
theorem C6_amended :
    ∀ h : Handles,
      (stop_server h).1 = h
      ∧ (stop_server ((stop_server h).1)).2 = (stop_server h).2
      ∧ ((stop_server h).2 = [] ↔ h = Handles.mk false false false false false) := by
  intro h
  obtain ⟨a, b, c, d, e⟩ := h
  refine ⟨rfl, rfl, ?_⟩
  cases a <;> cases b <;> cases c <;> cases d <;> cases e <;> decide

/-- Claim C6 witness: on the never-started state the destroy list is empty. -/
theorem C6_amended_witness :
    (stop_server (Handles.mk false false false false false)).2 = [] :=
  (C6_amended (Handles.mk false false false false false)).2.2.mpr rfl

set_option maxHeartbeats 2000000 in
/-- Claim C7 counterexample: with -vs 0 the parser produces maxFps 24, but
start_server overwrites display[3] with 1 (uxplay.cpp line 538), so the
Config is not left unchanged and later relaunches no longer see the parser's
value. -/
theorem C7_counterexample :
    parseArgs (List.map strL ["-s", "1280x720@30", "-fps", "24", "-vs", "0"])
      = PResult.ok { initConfig with d0 := 1280, d1 := 720, d2 := 30, d3 := 24,
                                     videosink := strL "0" }
    ∧ startConfigEffect { initConfig with d0 := 1280, d1 := 720, d2 := 30, d3 := 24,
                                          videosink := strL "0" }
      ≠ { initConfig with d0 := 1280, d1 := 720, d2 := 30, d3 := 24, videosink := strL "0" }
    ∧ (startConfigEffect { initConfig with d0 := 1280, d1 := 720, d2 := 30, d3 := 24,
                                           videosink := strL "0" }).d3 = 1 := by decide

/-- Claim C7 (amended): start_server leaves the caller-owned Config unchanged
except in one case: when the video sink is the literal "0" it overwrites
display[3] (max fps) with 1, and only that field. -/
theorem C7_amended :
    ∀ c : Config,
      (c.videosink ≠ strL "0" → startConfigEffect c = c)
      ∧ (c.videosink = strL "0" → startConfigEffect c = { c with d3 := 1 }) := by
  intro c
  constructor
  · intro h
    simp [startConfigEffect, h]
  · intro h
    simp [startConfigEffect, h]

/-- Claim C7 witness: a Config whose video sink is not "0" is unchanged. -/
theorem C7_amended_witness : startConfigEffect initConfig = initConfig :=
  (C7_amended initConfig).1 (by decide)

set_option maxHeartbeats 2000000 in
/-- Claim C8: get_value accepts the 10-digit value 4294967296 = 2^32 when no
ceiling is active (the -t call site passes 0), and stores 4294967296 mod 2^32
= 0 through the unsigned int cast at uxplay.cpp line 212 — the stored field
does not equal the parsed value, it is silently reduced modulo 2^32,
contradicting the claim that values are never wrapped.  "-t 4294967296"
therefore leaves the timeout at 0 (disabled). -/
theorem C8_eval :
    get_value (strL "4294967296") 0 = some 0
    ∧ parseArgs (List.map strL ["-t", "4294967296"]) = PResult.ok initConfig
    ∧ initConfig.server_timeout = 0 := by decide

/-- Claim C9: every synthesized hardware address has byte 0 with bit 0 clear
(unicast) and bit 1 set (locally administered) and all bytes below 256, and
parse_hw_addr recovers exactly the generated bytes from the textual form;
more generally the parser round-trips every colon-separated list of
two-hex-digit groups to the bytes they encode. -/
theorem C9_hw_addr :
    (∀ r0 r1 r2 r3 r4 r5 : Nat,
       macByte0 r0 % 2 = 0
       ∧ macByte0 r0 / 2 % 2 = 1
       ∧ macByte0 r0 < 256
       ∧ parse_hw_addr (random_mac r0 r1 r2 r3 r4 r5)
           = some [macByte0 r0, r1 % 256, r2 % 256, r3 % 256, r4 % 256, r5 % 256])
    ∧ (∀ ps : List (Char × Char), (∀ p ∈ ps, isHexC p.1 = true ∧ isHexC p.2 = true) →
       parse_hw_addr (pairsText ps) = some (ps.map pairVal)) := by
  constructor
  · intro r0 r1 r2 r3 r4 r5
    have hb0 : macByte0 r0 < 256 := by unfold macByte0; omega
    refine ⟨by unfold macByte0; omega, by unfold macByte0; omega, hb0, ?_⟩
    rw [parse_hw_addr, random_mac_eq]
    have hhex : ∀ p ∈ [(hexChar (macByte0 r0 / 16), hexChar (macByte0 r0 % 16)),
                       (hexChar (r1 % 256 / 16), hexChar (r1 % 256 % 16)),
                       (hexChar (r2 % 256 / 16), hexChar (r2 % 256 % 16)),
                       (hexChar (r3 % 256 / 16), hexChar (r3 % 256 % 16)),
                       (hexChar (r4 % 256 / 16), hexChar (r4 % 256 % 16)),
                       (hexChar (r5 % 256 / 16), hexChar (r5 % 256 % 16))],
        isHexC p.1 = true ∧ isHexC p.2 = true := by
      intro p hp
      simp only [List.mem_cons, List.not_mem_nil, or_false] at hp
      rcases hp with rfl | rfl | rfl | rfl | rfl | rfl <;>
        exact ⟨hexChar_hex _ (by omega), hexChar_hex _ (by omega)⟩
    rw [parse_pairs _ hhex]
    simp only [List.map_cons, List.map_nil]
    rw [pairVal_hexChar hb0, pairVal_hexChar (by omega : r1 % 256 < 256),
        pairVal_hexChar (by omega : r2 % 256 < 256), pairVal_hexChar (by omega : r3 % 256 < 256),
        pairVal_hexChar (by omega : r4 % 256 < 256), pairVal_hexChar (by omega : r5 % 256 < 256)]
  · intro ps h
    exact parse_pairs ps h

/-- Claim C9 witness: the theorem at rand values 5, 0, ..., 0 (first byte
((5 mod 64) shl 1 + 1) shl 1 = 22, locally administered and unicast) and at
the two-group text "ab:01". -/
theorem C9_hw_addr_witness :
    parse_hw_addr (random_mac 5 0 0 0 0 0) = some [22, 0, 0, 0, 0, 0]
    ∧ parse_hw_addr (pairsText [('a', 'b'), ('0', '1')]) = some [171, 1] := by
  constructor
  · exact (C9_hw_addr.1 5 0 0 0 0 0).2.2.2
  · exact C9_hw_addr.2 [('a', 'b'), ('0', '1')] (by decide)

/-- Claim C10: a conn_destroy while open_connections is already 0 wraps the
unsigned counter to 4294967295; the post-decrement value is nonzero so
connections_stopped is left untouched; starting from the initial state
(connections_stopped false), any number of further closes below 2^32 - 1
still leaves connections_stopped false — idle-timeout counting stays
disabled — and exactly 2^32 - 1 further closes are needed before a
post-decrement value of 0 sets it. -/
theorem C10_conn_underflow :
    (∀ s : WDState, s.open_connections = 0 →
       (conn_destroy s).open_connections = 4294967295
       ∧ (conn_destroy s).connections_stopped = s.connections_stopped)
    ∧ (∀ (s : WDState) (n : Nat), s.open_connections = 0 → s.connections_stopped = false →
       n < 4294967295 →
       (conn_destroy^[n] (conn_destroy s)).connections_stopped = false)
    ∧ (∀ s : WDState, s.open_connections = 0 →
       (conn_destroy^[4294967295] (conn_destroy s)).connections_stopped = true) := by
  have hfirst : ∀ s : WDState, s.open_connections = 0 →
      conn_destroy s = { s with open_connections := 4294967295 } := by
    intro s h
    simp [conn_destroy, h, U32]
  refine ⟨?_, ?_, ?_⟩
  · intro s h
    rw [hfirst s h]
    exact ⟨rfl, rfl⟩
  · intro s n h hs hn
    rw [hfirst s h]
    have hit := conn_destroy_iter n { s with open_connections := 4294967295 }
      (by norm_num [U32]) (by simpa using hn)
    rw [hit.2]
    exact hs
  · intro s h
    rw [hfirst s h]
    have hiter_eq : conn_destroy^[4294967295] ({ s with open_connections := 4294967295 } : WDState)
        = conn_destroy (conn_destroy^[4294967294] { s with open_connections := 4294967295 }) :=
      Function.iterate_succ_apply' conn_destroy 4294967294 _
    rw [hiter_eq]
    have hit := conn_destroy_iter 4294967294 { s with open_connections := 4294967295 }
      (by norm_num [U32]) (by norm_num)
    have hopen : (conn_destroy^[4294967294]
        { s with open_connections := 4294967295 }).open_connections = 1 := by
      rw [hit.1]
      show (4294967295 : Nat) - 4294967294 = 1
      norm_num
    have hcond : ((1 : Nat) + (U32 - 1)) % U32 = 0 := by norm_num [U32]
    simp only [conn_destroy, hopen, hcond]
    simp

/-- Claim C10 witness: the theorem at the initial watchdog state and seven
further closes. -/
theorem C10_conn_underflow_witness :
    (conn_destroy (WDState.mk 0 false 0 true false)).open_connections = 4294967295
    ∧ (conn_destroy^[7] (conn_destroy (WDState.mk 0 false 0 true false))).connections_stopped
        = false :=
  ⟨(C10_conn_underflow.1 (WDState.mk 0 false 0 true false) rfl).1,
   C10_conn_underflow.2.1 (WDState.mk 0 false 0 true false) 7 rfl rfl (by norm_num)⟩

end UxPlay
